import Mathlib

/-!
Verification of the client-side game-state engine of the gem2ofc repository
(src/static/common.js).  The JavaScript classes `Card`, `Slot`, `Board` and
`Game` are shallowly embedded: a slot is an `Option Card`, the three board
rows and the 17 staging ("combination") slots are lists of optional cards,
and the two JS `Set`s of card keys become `Finset String`.  Every mutating
handler of the `Game` class becomes a pure function `GameState → GameState`
(returning in addition the network requests it issues, where a claim talks
about them).  DOM manipulation (class lists, element creation, royalty
animation) carries no game state beyond what the embedded fields record and
is dropped; network calls are recorded as abstract `Request` tags since the
client treats them as fire-and-forget.
-/

set_option maxRecDepth 10000

namespace Gem2Ofc

/-- JS class `Card` of common.js: an immutable (rank, suit) pair of strings. -/
structure Card where
  rank : String
  suit : String
deriving DecidableEq, Repr

/-- Key of a card, as in `Card.getCardKey` of common.js: the key is the concatenation rank‖suit. -/
def Card.getCardKey (c : Card) : String := c.rank ++ c.suit

/-- The three board rows (`Board.rows` keys 'top', 'middle', 'bottom'). -/
inductive RowName
  | top
  | middle
  | bottom
deriving DecidableEq, Repr

/-- Endpoints the client POSTs/GETs; the handlers below report which request
they issue (the client is fire-and-forget, so only the tag matters). -/
inductive Request
  | updateState
  | aiMove
  | resetTraining
  | trainingProgress
deriving DecidableEq, Repr

/-- The `move` object of an /ai_move response: three lines of optional card
entries (`null` entries are skipped by `placeCards`).  A line absent from the
JSON behaves exactly like an empty list (both skip the placement loop). -/
structure MoveData where
  top : List (Option Card)
  middle : List (Option Card)
  bottom : List (Option Card)
deriving DecidableEq, Repr

/-- The /ai_move response fields consumed by `Game.distributeCards`.
`royalties` and `total_royalty` only feed the royalty animation and the
total-royalty label, which hold no game state, so they are not modelled. -/
structure AiResponse where
  move : MoveData
  gameOver : Bool
  error : Option String
deriving DecidableEq, Repr

/-- A `.selector-item` DOM element as seen by `Game.handleCardSelection`:
it carries either a `data-rank` or a `data-suit`, plus whether it currently
has the `unavailable` CSS class (which makes the click return early). -/
inductive SelectorItem
  | rankItem (r : String) (unavailableClass : Bool)
  | suitItem (su : String) (unavailableClass : Bool)
deriving DecidableEq, Repr

def SelectorItem.hasUnavailableClass : SelectorItem → Bool
  | .rankItem _ b => b
  | .suitItem _ b => b

/-- The mutable state of the `Game` singleton (plus the board slots owned by
its `Board`): 17 combination slots, the 3/5/5 board rows, the two key sets,
and the current rank/suit selection. -/
structure GameState where
  combinationSlots : List (Option Card)
  top : List (Option Card)
  middle : List (Option Card)
  bottom : List (Option Card)
  unavailableCards : Finset String
  discardedCards : Finset String
  selectedRank : Option String
  selectedSuit : Option String
deriving DecidableEq

def rowOf (s : GameState) : RowName → List (Option Card)
  | .top => s.top
  | .middle => s.middle
  | .bottom => s.bottom

def setRow (s : GameState) (r : RowName) (row : List (Option Card)) : GameState :=
  match r with
  | .top => { s with top := row }
  | .middle => { s with middle := row }
  | .bottom => { s with bottom := row }

def moveRow (m : MoveData) : RowName → List (Option Card)
  | .top => m.top
  | .middle => m.middle
  | .bottom => m.bottom

/-- State after `new Game()` / `init()`: empty board, empty staging, empty
sets, no selection. -/
def initState : GameState :=
  { combinationSlots := List.replicate 17 none
    top := List.replicate 3 none
    middle := List.replicate 5 none
    bottom := List.replicate 5 none
    unavailableCards := ∅
    discardedCards := ∅
    selectedRank := none
    selectedSuit := none }

/-- The rank labels of the selector row, in the order the code lists them. -/
def ranks : List String :=
  ["A", "K", "Q", "J", "10", "9", "8", "7", "6", "5", "4", "3", "2"]

/-- The four suit glyphs, in the order the code lists them. -/
def suits : List String := ["♥", "♦", "♣", "♠"]

/-- The 52 card keys built in `updateSelectorAvailability`. -/
def universeKeys : List String :=
  ranks.flatMap (fun r => suits.map (fun su => r ++ su))

/-- The `cardAvailability` map recomputed by `updateSelectorAvailability`:
every universe key starts `true` and is flipped to `false` when the key is a
member of `unavailableCards` or of `discardedCards` (the two `forEach`
loops; flipping is order-independent, so it is expressed pointwise). -/
def cardAvailability (s : GameState) : List (String × Bool) :=
  universeKeys.map (fun k =>
    (k, (!(decide (k ∈ s.unavailableCards))) && (!(decide (k ∈ s.discardedCards)))))

/-- Whether the selection controls still offer a key: looked up in the
derived `cardAvailability` map; keys outside the universe fail the
`hasOwnProperty` guard and are never offered. -/
def isAvailable (s : GameState) (key : String) : Bool :=
  (List.lookup key (cardAvailability s)).getD false

/-- Index of the first empty combination slot, as found by
`this.combinationSlots.find(slot => !slot.getCard())`. -/
def firstNoneIdx : List (Option Card) → Option Nat
  | [] => none
  | none :: _ => some 0
  | some _ :: rest => (firstNoneIdx rest).map (· + 1)

/-- Index of the first slot holding a card with the given rank and suit
(the search loop of `handleDoubleClick`). -/
def firstMatchIdx (rank suit : String) : List (Option Card) → Option Nat
  | [] => none
  | none :: rest => (firstMatchIdx rank suit rest).map (· + 1)
  | some c :: rest =>
      if c.rank = rank ∧ c.suit = suit then some 0
      else (firstMatchIdx rank suit rest).map (· + 1)

/-- One step of the slot-refill loop shared by `handleDoubleClick` and
`removeSelectedCards`.  In the JS code `filledSlots` holds references to the
same mutable `Slot` objects that were just cleared, so `slot.getCard()` in
the refill loop reads the CURRENT contents of the cell, not a saved copy.
A slot reference is therefore modelled as the index of its cell, and each
step reads cell `pj.2` of the evolving slot list and, when it still holds a
card, writes it into cell `pj.1`. -/
def refillStep (acc : List (Option Card)) (pj : Nat × Nat) : List (Option Card) :=
  match acc.get? pj.2 with
  | some (some c) => acc.set pj.1 (some c)
  | _ => acc

/-- The compaction block: collect the indices of the currently occupied
slots, clear every slot, then run the refill loop (position `p` of the
collected list refills cell `p` from the — now cleared — cell it
references). -/
def compactSlots (slots : List (Option Card)) : List (Option Card) :=
  let filledIdxs :=
    (List.range slots.length).filter (fun i => ((slots.get? i).getD none).isSome)
  let cleared := List.replicate slots.length (none : Option Card)
  filledIdxs.enum.foldl refillStep cleared

/-- Handler `Game.handleCombinationSlotDrop`: a drop of payload (rank, suit) on
staging slot `i` places a fresh card there only when the key is neither
unavailable nor discarded and the slot is empty, marking the key
unavailable and clearing the rank/suit selection; otherwise nothing
happens. -/
def handleCombinationSlotDrop (rank suit : String) (i : Nat) (s : GameState) :
    GameState :=
  let cardKey := rank ++ suit
  if cardKey ∉ s.unavailableCards ∧ cardKey ∉ s.discardedCards ∧
      s.combinationSlots.get? i = some none then
    { s with
      combinationSlots := s.combinationSlots.set i (some ⟨rank, suit⟩)
      unavailableCards := insert cardKey s.unavailableCards
      selectedRank := none
      selectedSuit := none }
  else s

/-- Handler `Game.handleDrop` (attached to board slots): same guard and effect as
the staging drop, but on board row `r`, position `i`. -/
def handleDrop (rank suit : String) (r : RowName) (i : Nat) (s : GameState) :
    GameState :=
  let cardKey := rank ++ suit
  if cardKey ∉ s.unavailableCards ∧ cardKey ∉ s.discardedCards ∧
      (rowOf s r).get? i = some none then
    let s1 := setRow s r ((rowOf s r).set i (some ⟨rank, suit⟩))
    { s1 with
      unavailableCards := insert cardKey s1.unavailableCards
      selectedRank := none
      selectedSuit := none }
  else s

/-- The toggle part of `Game.handleCardSelection`: clicking the selector of
an already-selected rank/suit deselects it, otherwise it becomes the
selection (replacing any previous one). -/
def toggleSelection (item : SelectorItem) (s : GameState) : GameState :=
  match item with
  | .rankItem r _ =>
      if s.selectedRank = some r then { s with selectedRank := none }
      else { s with selectedRank := some r }
  | .suitItem su _ =>
      if s.selectedSuit = some su then { s with selectedSuit := none }
      else { s with selectedSuit := some su }

/-- The auto-place block of `handleCardSelection`: when a rank and a suit
are both selected and the key is neither unavailable nor discarded, the
card goes into the first empty combination slot (if any), the key becomes
unavailable, and the selection is cleared. -/
def autoPlaceSelected (s : GameState) : GameState :=
  match s.selectedRank, s.selectedSuit with
  | some r, some su =>
      let cardKey := r ++ su
      if cardKey ∉ s.unavailableCards ∧ cardKey ∉ s.discardedCards then
        match firstNoneIdx s.combinationSlots with
        | some i =>
            { s with
              combinationSlots := s.combinationSlots.set i (some ⟨r, su⟩)
              unavailableCards := insert cardKey s.unavailableCards
              selectedRank := none
              selectedSuit := none }
        | none => s
      else s
  | _, _ => s

/-- Handler `Game.handleCardSelection`: early return when the clicked selector has
the `unavailable` class, otherwise toggle the selection and run the
auto-place block. -/
def handleCardSelection (item : SelectorItem) (s : GameState) : GameState :=
  if item.hasUnavailableClass then s
  else autoPlaceSelected (toggleSelection item s)

/-- Handler `Game.handleDoubleClick` for a card double-clicked inside a combination
slot (the only way the listener fires with `source === 'combination'`):
when the key is unavailable, it is deleted from `unavailableCards`, the
first slot holding that card is cleared, and the compaction block runs.
The key is deliberately NOT added to `discardedCards`. -/
def handleDoubleClick (rank suit : String) (s : GameState) : GameState :=
  let cardKey := rank ++ suit
  if cardKey ∈ s.unavailableCards then
    let s1 := { s with unavailableCards := s.unavailableCards.erase cardKey }
    match firstMatchIdx rank suit s1.combinationSlots with
    | some i =>
        { s1 with combinationSlots := compactSlots (s1.combinationSlots.set i none) }
    | none => s1
  else s

/-- One line of `Board.placeCards`: entry `index` of the assignment is
placed into slot `index` of the row only when the entry is non-null and the
slot is empty; occupied slots are never overwritten, and assignment entries
beyond the row length address no slot. -/
def placeLine : List (Option Card) → List (Option Card) → List (Option Card)
  | row, [] => row
  | [], _ => []
  | slot :: row, a :: asg =>
      (match slot, a with
       | none, some c => some c
       | _, _ => slot) :: placeLine row asg

/-- The cards actually placed by `placeLine` (entry non-null and slot
empty), in position order — these are the cards whose keys the placement
loop inserts into the two sets. -/
def placedCards : List (Option Card) → List (Option Card) → List Card
  | _, [] => []
  | [], _ => []
  | slot :: row, a :: asg =>
      match slot, a with
      | none, some c => c :: placedCards row asg
      | _, _ => placedCards row asg

/-- Method `Board.placeCards`: place each line, insert every placed key into both
`unavailableCards` and `discardedCards` (the two `add` calls inside the
placement loop), then run the trailing loop that inserts the key of every
card now on the board (slots are stored in top, middle, bottom order) into
`discardedCards`. -/
def placeCards (move : MoveData) (s : GameState) : GameState :=
  let top' := placeLine s.top move.top
  let middle' := placeLine s.middle move.middle
  let bottom' := placeLine s.bottom move.bottom
  let placed := placedCards s.top move.top ++ placedCards s.middle move.middle ++
    placedCards s.bottom move.bottom
  let unav := placed.foldl (fun u c => insert c.getCardKey u) s.unavailableCards
  let disc := placed.foldl (fun d c => insert c.getCardKey d) s.discardedCards
  let boardAfter := (top' ++ middle' ++ bottom').filterMap id
  let disc2 := boardAfter.foldl (fun d c => insert c.getCardKey d) disc
  { s with
    top := top'
    middle := middle'
    bottom := bottom'
    unavailableCards := unav
    discardedCards := disc2 }

/-- Method `Game.resetCombinationArea`: clear every combination slot and empty
`unavailableCards`; `discardedCards` is intentionally kept (the commented
out `clear()` in the source). -/
def resetCombinationArea (s : GameState) : GameState :=
  { s with
    combinationSlots := s.combinationSlots.map (fun _ => none)
    unavailableCards := ∅ }

/-- Method `Game.removeSelectedCards`: for every occupied combination slot, delete
the key from `unavailableCards`, insert it into `discardedCards`, and clear
the slot; when anything changed the compaction block runs on the (now fully
cleared) slots and, when at least one card was removed, an /update_state
request carrying the removed cards is sent. -/
def removeSelectedCards (s : GameState) : GameState × List Request :=
  let cards := s.combinationSlots.filterMap id
  let unav := cards.foldl (fun u c => u.erase c.getCardKey) s.unavailableCards
  let disc := cards.foldl (fun d c => insert c.getCardKey d) s.discardedCards
  let slots1 := s.combinationSlots.map (fun _ => (none : Option Card))
  if cards = [] then (s, [])
  else
    ({ s with
        combinationSlots := compactSlots slots1
        unavailableCards := unav
        discardedCards := disc },
      [Request.updateState])

/-- The synchronous part of `Game.distributeCards`: with no staged card it
only alerts ('Please select cards to add.') and issues no request; with at
least one staged card it POSTs the /ai_move request.  Either way the local
state is untouched at this point (the response is handled separately by
`handleAiMoveResponse`).  Result: (state, request issued, alert shown). -/
def distributeCards (s : GameState) : GameState × Option Request × Bool :=
  let numCards := (s.combinationSlots.filterMap id).length
  if numCards > 0 then (s, some Request.aiMove, false)
  else (s, none, true)

/-- The success continuation of `distributeCards` applied to a response
without an error field: every non-null card of `move` is added to
`discardedCards` (the loop over `data.move`), then `Board.placeCards` runs;
when the game is not over the combination area is reset. -/
def applyAiMove (move : MoveData) (gameOver : Bool) (s : GameState) : GameState :=
  let moveCards := (move.top ++ move.middle ++ move.bottom).filterMap id
  let s1 := { s with
    discardedCards := moveCards.foldl (fun d c => insert c.getCardKey d) s.discardedCards }
  let s2 := placeCards move s1
  if gameOver then s2 else resetCombinationArea s2

/-- The /ai_move response handler of `distributeCards`: an `error` field
only alerts and leaves the state unchanged; otherwise the move is applied
and the handler sends a follow-up /update_state (`updateGameStateAndSend`)
and refreshes the training progress. -/
def handleAiMoveResponse (resp : AiResponse) (s : GameState) : GameState × List Request :=
  match resp.error with
  | some _ => (s, [])
  | none =>
      (applyAiMove resp.move resp.gameOver s,
        [Request.updateState, Request.trainingProgress])

/-- Method `Game.resetTraining`: clear the board (`board.clear()`), reset the
combination area, empty both key sets, drop the selection, and send the
reset state to the server via /update_state. -/
def resetTrainingOp (s : GameState) : GameState × List Request :=
  let s1 := { s with
    top := s.top.map (fun _ => none)
    middle := s.middle.map (fun _ => none)
    bottom := s.bottom.map (fun _ => none) }
  let s2 := resetCombinationArea s1
  ({ s2 with
      unavailableCards := ∅
      discardedCards := ∅
      selectedRank := none
      selectedSuit := none },
    [Request.updateState])

/-- Method `Game.resetAI`: POSTs /reset_training; the response handler only alerts
and refreshes the training-progress display, so no game-state field
changes. -/
def resetAI (s : GameState) : GameState × List Request :=
  (s, [Request.resetTraining])

/-- One user-visible mutating operation of the client. -/
inductive Op
  | select (item : SelectorItem)
  | dropStaging (rank suit : String) (i : Nat)
  | dropBoard (rank suit : String) (r : RowName) (i : Nat)
  | dblClick (rank suit : String)
  | removeAll
  | aiResp (resp : AiResponse)
  | resetT
  | resetA
deriving DecidableEq, Repr

def applyOp (op : Op) (s : GameState) : GameState :=
  match op with
  | .select item => handleCardSelection item s
  | .dropStaging rank suit i => handleCombinationSlotDrop rank suit i s
  | .dropBoard rank suit r i => handleDrop rank suit r i s
  | .dblClick rank suit => handleDoubleClick rank suit s
  | .removeAll => (removeSelectedCards s).1
  | .aiResp resp => (handleAiMoveResponse resp s).1
  | .resetT => (resetTrainingOp s).1
  | .resetA => (resetAI s).1

def runOps (ops : List Op) (s : GameState) : GameState :=
  ops.foldl (fun t op => applyOp op t) s

/-- The character class `[0-9JQKA]` of the key-parsing regular expression
in `getGameStateFromDOM`. -/
def rankClassChar (c : Char) : Bool :=
  (decide ('0' ≤ c) && decide (c ≤ '9')) || c == 'J' || c == 'Q' || c == 'K' || c == 'A'

/-- The character class `[♥♦♣♠]` of the same regular expression. -/
def suitClassChar (c : Char) : Bool :=
  c == '♥' || c == '♦' || c == '♣' || c == '♠'

/-- Greedy match of `[0-9JQKA]*[♥♦♣♠]` at the front of the input, with the
regex engine's backtracking: prefer consuming another rank-class character;
on failure of the longer attempt the current character must close the match
as the suit. Returns (characters consumed by the star, suit character). -/
def matchStarSuit : List Char → Option (List Char × Char)
  | [] => none
  | c :: rest =>
      if rankClassChar c then
        match matchStarSuit rest with
        | some rs => some (c :: rs.1, rs.2)
        | none => if suitClassChar c then some ([], c) else none
      else if suitClassChar c then some ([], c)
      else none

/-- Match of `([0-9JQKA]+)([♥♦♣♠])` anchored at the front: one rank-class
character followed by the greedy star and the suit. -/
def matchAt (l : List Char) : Option (List Char × Char) :=
  match l with
  | [] => none
  | c :: rest =>
      if rankClassChar c then
        match matchStarSuit rest with
        | some rs => some (c :: rs.1, rs.2)
        | none => none
      else none

/-- JS `String.match` without the global flag: scan for the first position
where the pattern matches and return its capture groups. -/
def regexMatch : List Char → Option (List Char × Char)
  | [] => none
  | c :: rest =>
      match matchAt (c :: rest) with
      | some r => some r
      | none => regexMatch rest

/-- The key-splitting step of `getGameStateFromDOM`:
`cardKey.match(/([0-9JQKA]+)([♥♦♣♠])/).slice(1)` yields the rank and suit
capture groups as strings. -/
def parseCardKey (key : String) : Option (String × String) :=
  (regexMatch key.toList).map (fun rs => (String.mk rs.1, String.mk [rs.2]))

/-- Statement vocabulary: the occupied staging slots form a prefix of the
slot list — after skipping the leading run of occupied slots, every
remaining slot is empty (spec invariant I4). -/
def slotsCompacted (slots : List (Option Card)) : Bool :=
  (slots.dropWhile Option.isSome).all Option.isNone

/-- Statement vocabulary: operations whose AI-move application (if any)
carries an error or reports the game as not over. -/
def benignOp : Op → Bool
  | .aiResp resp => resp.error.isSome || !resp.gameOver
  | _ => true

/-- Statement vocabulary: operations other than a drag-drop onto a chosen
staging slot. -/
def nonStagingDrop : Op → Bool
  | .dropStaging _ _ _ => false
  | _ => true

/-! ### Helper lemmas about folds over the key sets -/

theorem mem_foldl_insert (l : List Card) (d : Finset String) (x : String) :
    x ∈ l.foldl (fun d c => insert c.getCardKey d) d ↔
      x ∈ d ∨ ∃ c ∈ l, c.getCardKey = x := by
  induction l generalizing d with
  | nil => simp
  | cons c l ih =>
      rw [List.foldl_cons, ih]
      constructor
      · intro h
        rcases h with h | ⟨c', hc', hk⟩
        · rcases Finset.mem_insert.1 h with h | h
          · exact Or.inr ⟨c, List.mem_cons_self c l, h.symm⟩
          · exact Or.inl h
        · exact Or.inr ⟨c', List.mem_cons_of_mem c hc', hk⟩
      · intro h
        rcases h with h | ⟨c', hc', hk⟩
        · exact Or.inl (Finset.mem_insert_of_mem h)
        · rcases List.mem_cons.1 hc' with rfl | hc'
          · exact Or.inl (by rw [← hk]; exact Finset.mem_insert_self _ _)
          · exact Or.inr ⟨c', hc', hk⟩

theorem subset_foldl_insert (l : List Card) (d : Finset String) :
    d ⊆ l.foldl (fun d c => insert c.getCardKey d) d := by
  intro x hx
  rw [mem_foldl_insert]
  exact Or.inl hx

theorem mem_foldl_insert_of_mem (l : List Card) (d : Finset String) {c : Card}
    (hc : c ∈ l) :
    c.getCardKey ∈ l.foldl (fun d c => insert c.getCardKey d) d := by
  rw [mem_foldl_insert]
  exact Or.inr ⟨c, hc, rfl⟩

theorem mem_foldl_erase (l : List Card) (u : Finset String) (x : String) :
    x ∈ l.foldl (fun u c => u.erase c.getCardKey) u ↔
      x ∈ u ∧ ∀ c ∈ l, c.getCardKey ≠ x := by
  induction l generalizing u with
  | nil => simp
  | cons c l ih =>
      simp only [List.foldl_cons, ih, Finset.mem_erase, List.mem_cons]
      constructor
      · rintro ⟨⟨hne, hu⟩, hall⟩
        refine ⟨hu, ?_⟩
        rintro c' (rfl | hc')
        · exact fun h => hne h.symm
        · exact hall c' hc'
      · rintro ⟨hu, hall⟩
        exact ⟨⟨fun h => hall c (Or.inl rfl) h.symm, hu⟩,
          fun c' hc' => hall c' (Or.inr hc')⟩

/-! ### Helper lemmas about `placeLine` and `placedCards` -/

theorem placeLine_get?_of_occupied (row asg : List (Option Card)) (j : Nat) (c : Card)
    (h : row.get? j = some (some c)) :
    (placeLine row asg).get? j = some (some c) := by
  induction row generalizing asg j with
  | nil => simp at h
  | cons slot row ih =>
      cases asg with
      | nil => simpa [placeLine] using h
      | cons a asg =>
          cases j with
          | zero =>
              simp only [List.get?] at h
              cases slot with
              | none => simp at h
              | some b => simp_all [placeLine]
          | succ j =>
              simp only [List.get?] at h
              simpa [placeLine] using ih asg j h

theorem placeLine_get?_of_placed (row asg : List (Option Card)) (j : Nat) (c : Card)
    (h1 : row.get? j = some none) (h2 : asg.get? j = some (some c)) :
    (placeLine row asg).get? j = some (some c) := by
  induction row generalizing asg j with
  | nil => simp at h1
  | cons slot row ih =>
      cases asg with
      | nil => simp at h2
      | cons a asg =>
          cases j with
          | zero =>
              simp only [List.get?] at h1 h2
              cases slot with
              | some b => simp at h1
              | none => simp_all [placeLine]
          | succ j =>
              simp only [List.get?] at h1 h2
              simpa [placeLine] using ih asg j h1 h2

theorem placeLine_get?_of_skip (row asg : List (Option Card)) (j : Nat)
    (h1 : row.get? j = some none)
    (h2 : asg.get? j = some none ∨ asg.get? j = none) :
    (placeLine row asg).get? j = some none := by
  induction row generalizing asg j with
  | nil => simp at h1
  | cons slot row ih =>
      cases asg with
      | nil => simpa [placeLine] using h1
      | cons a asg =>
          cases j with
          | zero =>
              rw [List.get?_cons_zero, Option.some_inj] at h1
              subst h1
              rcases h2 with h2 | h2
              · rw [List.get?_cons_zero, Option.some_inj] at h2
                subst h2
                simp [placeLine]
              · simp at h2
          | succ j =>
              simp only [List.get?_cons_succ] at h1 h2
              simpa [placeLine] using ih asg j h1 h2

theorem placedCards_mem (row asg : List (Option Card)) (j : Nat) (c : Card)
    (h1 : row.get? j = some none) (h2 : asg.get? j = some (some c)) :
    c ∈ placedCards row asg := by
  induction row generalizing asg j with
  | nil => simp at h1
  | cons slot row ih =>
      cases asg with
      | nil => simp at h2
      | cons a asg =>
          cases j with
          | zero =>
              simp only [List.get?] at h1 h2
              cases slot with
              | some b => simp at h1
              | none =>
                  rw [Option.some_inj] at h2
                  rw [h2]
                  simp [placedCards]
          | succ j =>
              simp only [List.get?] at h1 h2
              have := ih asg j h1 h2
              cases slot <;> cases a <;> simp [placedCards, this]

/-! ### The refill loop never restores a card -/

theorem refillStep_replicate (n : Nat) (pj : Nat × Nat) :
    refillStep (List.replicate n (none : Option Card)) pj =
      List.replicate n (none : Option Card) := by
  unfold refillStep
  rcases h : (List.replicate n (none : Option Card)).get? pj.2 with _ | oc
  · simp [h]
  · have hoc : oc = none := List.eq_of_mem_replicate (List.get?_mem h)
    subst hoc
    simp [h]

theorem foldl_refillStep_replicate (n : Nat) (l : List (Nat × Nat)) :
    l.foldl refillStep (List.replicate n (none : Option Card)) =
      List.replicate n (none : Option Card) := by
  induction l with
  | nil => rfl
  | cons pj l ih => rw [List.foldl_cons, refillStep_replicate, ih]

/-- The compaction block of `handleDoubleClick` / `removeSelectedCards`
always produces a fully empty slot list: `filledSlots` aliases the very
cells that the clear-all loop has just emptied, so the refill reads only
empty cells. -/
theorem compactSlots_eq (slots : List (Option Card)) :
    compactSlots slots = List.replicate slots.length none := by
  unfold compactSlots
  exact foldl_refillStep_replicate _ _

/-! ### Lemmas about the compaction predicate -/

theorem dropWhile_isSome_of_all_isNone (l : List (Option Card))
    (h : l.all Option.isNone = true) : l.dropWhile Option.isSome = l := by
  cases l with
  | nil => rfl
  | cons a l =>
      simp only [List.all_cons, Bool.and_eq_true] at h
      cases a with
      | none => simp [List.dropWhile]
      | some b => simp at h

theorem slotsCompacted_of_all_isNone (l : List (Option Card))
    (h : l.all Option.isNone = true) : slotsCompacted l = true := by
  unfold slotsCompacted
  rw [dropWhile_isSome_of_all_isNone l h]
  exact h

theorem slotsCompacted_replicate (n : Nat) :
    slotsCompacted (List.replicate n (none : Option Card)) = true := by
  apply slotsCompacted_of_all_isNone
  simp

theorem all_isNone_map_none (l : List (Option Card)) :
    (l.map (fun _ => (none : Option Card))).all Option.isNone = true := by
  simp

theorem slotsCompacted_cons_some (b : Card) (l : List (Option Card)) :
    slotsCompacted (some b :: l) = slotsCompacted l := by
  simp [slotsCompacted, List.dropWhile]

theorem slotsCompacted_set_firstNone (slots : List (Option Card)) (i : Nat) (c : Card)
    (hcomp : slotsCompacted slots = true)
    (hidx : firstNoneIdx slots = some i) :
    slotsCompacted (slots.set i (some c)) = true := by
  induction slots generalizing i with
  | nil => simp [firstNoneIdx] at hidx
  | cons a rest ih =>
      cases a with
      | none =>
          have hi : i = 0 := by
            simpa [firstNoneIdx] using hidx.symm
          subst hi
          have hrest : rest.all Option.isNone = true := by
            simpa [slotsCompacted, List.dropWhile] using hcomp
          simp only [List.set]
          rw [slotsCompacted_cons_some]
          exact slotsCompacted_of_all_isNone rest hrest
      | some b =>
          simp only [firstNoneIdx, Option.map_eq_some'] at hidx
          obtain ⟨i', hi', rfl⟩ := hidx
          rw [slotsCompacted_cons_some] at hcomp
          simp only [List.set]
          rw [slotsCompacted_cons_some]
          exact ih i' hcomp hi'

/-! ### Lemmas about the derived availability view -/

theorem lookup_map_self (l : List String) (f : String → Bool) (key : String) :
    List.lookup key (l.map (fun k => (k, f k))) =
      if key ∈ l then some (f key) else none := by
  induction l with
  | nil => simp
  | cons a l ih =>
      simp only [List.map_cons, List.lookup]
      by_cases h : key = a
      · subst h
        simp
      · have hb : (key == a) = false := by simpa using h
        simp [hb, ih, List.mem_cons, h]

theorem isAvailable_iff (s : GameState) (key : String) :
    isAvailable s key = true ↔
      key ∈ universeKeys ∧ key ∉ s.unavailableCards ∧ key ∉ s.discardedCards := by
  unfold isAvailable cardAvailability
  rw [lookup_map_self]
  by_cases h : key ∈ universeKeys
  · simp [h]
  · simp [h]

theorem isAvailable_false_of_discarded (s : GameState) (key : String)
    (h : key ∈ s.discardedCards) : isAvailable s key = false := by
  cases hb : isAvailable s key with
  | false => rfl
  | true => exact absurd h ((isAvailable_iff s key).1 hb).2.2

/-! ### Case characterizations of the input handlers -/

theorem toggleSelection_fields (item : SelectorItem) (s : GameState) :
    (toggleSelection item s).combinationSlots = s.combinationSlots ∧
    (toggleSelection item s).unavailableCards = s.unavailableCards ∧
    (toggleSelection item s).discardedCards = s.discardedCards := by
  cases item with
  | rankItem r b =>
      by_cases h : s.selectedRank = some r <;> simp [toggleSelection, h]
  | suitItem su b =>
      by_cases h : s.selectedSuit = some su <;> simp [toggleSelection, h]

theorem autoPlaceSelected_eq (s : GameState) :
    autoPlaceSelected s = s ∨
      ∃ r su i, (r ++ su) ∉ s.unavailableCards ∧ (r ++ su) ∉ s.discardedCards ∧
        firstNoneIdx s.combinationSlots = some i ∧
        (autoPlaceSelected s).combinationSlots =
          s.combinationSlots.set i (some ⟨r, su⟩) ∧
        (autoPlaceSelected s).unavailableCards =
          insert (r ++ su) s.unavailableCards ∧
        (autoPlaceSelected s).discardedCards = s.discardedCards := by
  unfold autoPlaceSelected
  cases hr : s.selectedRank with
  | none => exact Or.inl rfl
  | some r =>
      cases hsu : s.selectedSuit with
      | none => exact Or.inl rfl
      | some su =>
          dsimp only
          by_cases hg : (r ++ su) ∉ s.unavailableCards ∧ (r ++ su) ∉ s.discardedCards
          · rw [if_pos hg]
            cases hfi : firstNoneIdx s.combinationSlots with
            | none => exact Or.inl rfl
            | some i => exact Or.inr ⟨r, su, i, hg.1, hg.2, rfl, rfl, rfl, rfl⟩
          · rw [if_neg hg]
            exact Or.inl rfl

theorem handleCardSelection_eq (item : SelectorItem) (s : GameState) :
    ((handleCardSelection item s).combinationSlots = s.combinationSlots ∧
      (handleCardSelection item s).unavailableCards = s.unavailableCards ∧
      (handleCardSelection item s).discardedCards = s.discardedCards) ∨
    ∃ r su i, (r ++ su) ∉ s.unavailableCards ∧ (r ++ su) ∉ s.discardedCards ∧
      firstNoneIdx s.combinationSlots = some i ∧
      (handleCardSelection item s).combinationSlots =
        s.combinationSlots.set i (some ⟨r, su⟩) ∧
      (handleCardSelection item s).unavailableCards =
        insert (r ++ su) s.unavailableCards ∧
      (handleCardSelection item s).discardedCards = s.discardedCards := by
  unfold handleCardSelection
  split
  · exact Or.inl ⟨rfl, rfl, rfl⟩
  · obtain ⟨hc, hu, hd⟩ := toggleSelection_fields item s
    rcases autoPlaceSelected_eq (toggleSelection item s) with h |
      ⟨r, su, i, h1, h2, h3, h4, h5, h6⟩
    · rw [h]
      exact Or.inl ⟨hc, hu, hd⟩
    · rw [hu] at h1 h5
      rw [hd] at h2 h6
      rw [hc] at h3 h4
      exact Or.inr ⟨r, su, i, h1, h2, h3, h4, h5, h6⟩

theorem handleCombinationSlotDrop_eq (rank suit : String) (i : Nat) (s : GameState) :
    handleCombinationSlotDrop rank suit i s = s ∨
      ((rank ++ suit) ∉ s.unavailableCards ∧ (rank ++ suit) ∉ s.discardedCards ∧
        s.combinationSlots.get? i = some none ∧
        (handleCombinationSlotDrop rank suit i s).combinationSlots =
          s.combinationSlots.set i (some ⟨rank, suit⟩) ∧
        (handleCombinationSlotDrop rank suit i s).unavailableCards =
          insert (rank ++ suit) s.unavailableCards ∧
        (handleCombinationSlotDrop rank suit i s).discardedCards = s.discardedCards) := by
  unfold handleCombinationSlotDrop
  dsimp only
  split
  next h => exact Or.inr ⟨h.1, h.2.1, h.2.2, rfl, rfl, rfl⟩
  next => exact Or.inl rfl

theorem handleDrop_eq (rank suit : String) (r : RowName) (i : Nat) (s : GameState) :
    handleDrop rank suit r i s = s ∨
      ((rank ++ suit) ∉ s.unavailableCards ∧ (rank ++ suit) ∉ s.discardedCards ∧
        (rowOf s r).get? i = some none ∧
        (handleDrop rank suit r i s).combinationSlots = s.combinationSlots ∧
        (handleDrop rank suit r i s).unavailableCards =
          insert (rank ++ suit) s.unavailableCards ∧
        (handleDrop rank suit r i s).discardedCards = s.discardedCards) := by
  unfold handleDrop
  dsimp only
  split
  next h =>
      refine Or.inr ⟨h.1, h.2.1, h.2.2, ?_, ?_, ?_⟩ <;> cases r <;> rfl
  next => exact Or.inl rfl

theorem handleDoubleClick_eq (rank suit : String) (s : GameState) :
    handleDoubleClick rank suit s = s ∨
      (((handleDoubleClick rank suit s).combinationSlots = s.combinationSlots ∨
          (handleDoubleClick rank suit s).combinationSlots =
            List.replicate s.combinationSlots.length none) ∧
        (handleDoubleClick rank suit s).unavailableCards =
          s.unavailableCards.erase (rank ++ suit) ∧
        (handleDoubleClick rank suit s).discardedCards = s.discardedCards) := by
  unfold handleDoubleClick
  dsimp only
  split
  · split
    next i hi =>
        refine Or.inr ⟨Or.inr ?_, rfl, rfl⟩
        show compactSlots (s.combinationSlots.set i none) = _
        rw [compactSlots_eq, List.length_set]
    next => exact Or.inr ⟨Or.inl rfl, rfl, rfl⟩
  · exact Or.inl rfl

theorem removeSelectedCards_eq (s : GameState) :
    (removeSelectedCards s).1 = s ∨
      ((removeSelectedCards s).1.combinationSlots =
          List.replicate s.combinationSlots.length none ∧
        (removeSelectedCards s).1.unavailableCards =
          (s.combinationSlots.filterMap id).foldl
            (fun u c => u.erase c.getCardKey) s.unavailableCards ∧
        (removeSelectedCards s).1.discardedCards =
          (s.combinationSlots.filterMap id).foldl
            (fun d c => insert c.getCardKey d) s.discardedCards) := by
  unfold removeSelectedCards
  dsimp only
  split
  · exact Or.inl rfl
  · refine Or.inr ⟨?_, rfl, rfl⟩
    show compactSlots (s.combinationSlots.map fun _ => none) = _
    rw [compactSlots_eq, List.length_map]

theorem placeCards_combinationSlots (move : MoveData) (s : GameState) :
    (placeCards move s).combinationSlots = s.combinationSlots := rfl

theorem rowOf_placeCards (move : MoveData) (s : GameState) (r : RowName) :
    rowOf (placeCards move s) r = placeLine (rowOf s r) (moveRow move r) := by
  cases r <;> rfl

theorem placeCards_discarded_superset (move : MoveData) (s : GameState) :
    s.discardedCards ⊆ (placeCards move s).discardedCards := by
  intro x hx
  exact subset_foldl_insert _ _ (subset_foldl_insert _ _ hx)

theorem placeCards_discarded_of_placed (move : MoveData) (s : GameState) (c : Card)
    (hc : c ∈ placedCards s.top move.top ++ placedCards s.middle move.middle ++
      placedCards s.bottom move.bottom) :
    c.getCardKey ∈ (placeCards move s).discardedCards :=
  subset_foldl_insert _ _ (mem_foldl_insert_of_mem _ _ hc)

theorem rowOf_resetCombinationArea (s : GameState) (r : RowName) :
    rowOf (resetCombinationArea s) r = rowOf s r := by
  cases r <;> rfl

theorem applyAiMove_discarded_superset (move : MoveData) (g : Bool) (s : GameState) :
    s.discardedCards ⊆ (applyAiMove move g s).discardedCards := by
  unfold applyAiMove
  split <;>
    exact fun x hx => placeCards_discarded_superset _ _ (subset_foldl_insert _ _ hx)

/-! ### Per-operation invariant steps -/

theorem discarded_subset_applyOp (op : Op) (hop : op ≠ Op.resetT) (s : GameState) :
    s.discardedCards ⊆ (applyOp op s).discardedCards := by
  cases op with
  | select item =>
      rcases handleCardSelection_eq item s with ⟨_, _, hd⟩ | ⟨r, su, i, _, _, _, _, _, hd⟩ <;>
        · show s.discardedCards ⊆ (handleCardSelection item s).discardedCards
          rw [hd]
  | dropStaging rank suit i =>
      rcases handleCombinationSlotDrop_eq rank suit i s with h | ⟨_, _, _, _, _, hd⟩
      · show s.discardedCards ⊆ (handleCombinationSlotDrop rank suit i s).discardedCards
        rw [h]
      · show s.discardedCards ⊆ (handleCombinationSlotDrop rank suit i s).discardedCards
        rw [hd]
  | dropBoard rank suit r i =>
      rcases handleDrop_eq rank suit r i s with h | ⟨_, _, _, _, _, hd⟩
      · show s.discardedCards ⊆ (handleDrop rank suit r i s).discardedCards
        rw [h]
      · show s.discardedCards ⊆ (handleDrop rank suit r i s).discardedCards
        rw [hd]
  | dblClick rank suit =>
      rcases handleDoubleClick_eq rank suit s with h | ⟨_, _, hd⟩
      · show s.discardedCards ⊆ (handleDoubleClick rank suit s).discardedCards
        rw [h]
      · show s.discardedCards ⊆ (handleDoubleClick rank suit s).discardedCards
        rw [hd]
  | removeAll =>
      rcases removeSelectedCards_eq s with h | ⟨_, _, hd⟩
      · show s.discardedCards ⊆ (removeSelectedCards s).1.discardedCards
        rw [h]
      · show s.discardedCards ⊆ (removeSelectedCards s).1.discardedCards
        rw [hd]
        exact subset_foldl_insert _ _
  | aiResp resp =>
      show s.discardedCards ⊆ (handleAiMoveResponse resp s).1.discardedCards
      unfold handleAiMoveResponse
      cases resp.error with
      | some e => exact subset_rfl
      | none => exact applyAiMove_discarded_superset _ _ _
  | resetT => exact absurd rfl hop
  | resetA => exact subset_rfl

theorem discarded_subset_runOps (ops : List Op) (h : Op.resetT ∉ ops) (s : GameState) :
    s.discardedCards ⊆ (runOps ops s).discardedCards := by
  induction ops generalizing s with
  | nil => exact subset_rfl
  | cons op ops ih =>
      have h1 : op ≠ Op.resetT := fun he => h (he ▸ List.mem_cons_self op ops)
      have h2 : Op.resetT ∉ ops := fun hm => h (List.mem_cons_of_mem op hm)
      exact (discarded_subset_applyOp op h1 s).trans (ih h2 (applyOp op s))

theorem inter_empty_applyOp (op : Op) (hop : benignOp op = true) (s : GameState)
    (hs : s.unavailableCards ∩ s.discardedCards = ∅) :
    (applyOp op s).unavailableCards ∩ (applyOp op s).discardedCards = ∅ := by
  cases op with
  | select item =>
      show (handleCardSelection item s).unavailableCards ∩
        (handleCardSelection item s).discardedCards = ∅
      rcases handleCardSelection_eq item s with ⟨_, hu, hd⟩ |
        ⟨r, su, i, _, hnd, _, _, hu, hd⟩
      · rw [hu, hd]; exact hs
      · rw [hu, hd, Finset.insert_inter_of_not_mem hnd]; exact hs
  | dropStaging rank suit i =>
      show (handleCombinationSlotDrop rank suit i s).unavailableCards ∩
        (handleCombinationSlotDrop rank suit i s).discardedCards = ∅
      rcases handleCombinationSlotDrop_eq rank suit i s with h | ⟨_, hnd, _, _, hu, hd⟩
      · rw [h]; exact hs
      · rw [hu, hd, Finset.insert_inter_of_not_mem hnd]; exact hs
  | dropBoard rank suit r i =>
      show (handleDrop rank suit r i s).unavailableCards ∩
        (handleDrop rank suit r i s).discardedCards = ∅
      rcases handleDrop_eq rank suit r i s with h | ⟨_, hnd, _, _, hu, hd⟩
      · rw [h]; exact hs
      · rw [hu, hd, Finset.insert_inter_of_not_mem hnd]; exact hs
  | dblClick rank suit =>
      show (handleDoubleClick rank suit s).unavailableCards ∩
        (handleDoubleClick rank suit s).discardedCards = ∅
      rcases handleDoubleClick_eq rank suit s with h | ⟨_, hu, hd⟩
      · rw [h]; exact hs
      · rw [hu, hd]
        refine Finset.eq_empty_of_forall_not_mem fun x hx => ?_
        have hxu := Finset.mem_of_mem_erase (Finset.mem_of_mem_inter_left hx)
        have hxd := Finset.mem_of_mem_inter_right hx
        have : x ∈ s.unavailableCards ∩ s.discardedCards := Finset.mem_inter.2 ⟨hxu, hxd⟩
        rw [hs] at this
        exact absurd this (Finset.not_mem_empty x)
  | removeAll =>
      show (removeSelectedCards s).1.unavailableCards ∩
        (removeSelectedCards s).1.discardedCards = ∅
      rcases removeSelectedCards_eq s with h | ⟨_, hu, hd⟩
      · rw [h]; exact hs
      · rw [hu, hd]
        refine Finset.eq_empty_of_forall_not_mem fun x hx => ?_
        have hxu := (mem_foldl_erase _ _ _).1 (Finset.mem_of_mem_inter_left hx)
        have hxd := (mem_foldl_insert _ _ _).1 (Finset.mem_of_mem_inter_right hx)
        rcases hxd with hxd | ⟨c, hc, hk⟩
        · have : x ∈ s.unavailableCards ∩ s.discardedCards :=
            Finset.mem_inter.2 ⟨hxu.1, hxd⟩
          rw [hs] at this
          exact absurd this (Finset.not_mem_empty x)
        · exact hxu.2 c hc hk
  | aiResp resp =>
      show (handleAiMoveResponse resp s).1.unavailableCards ∩
        (handleAiMoveResponse resp s).1.discardedCards = ∅
      have hben : (resp.error.isSome || !resp.gameOver) = true := hop
      unfold handleAiMoveResponse
      cases herr : resp.error with
      | some e => exact hs
      | none =>
          dsimp only
          have hg : resp.gameOver = false := by
            rw [herr] at hben
            simpa using hben
          rw [hg]
          show (∅ : Finset String) ∩
            (resetCombinationArea (placeCards resp.move _)).discardedCards = ∅
          exact Finset.empty_inter _
  | resetT =>
      show (∅ : Finset String) ∩ _ = ∅
      exact Finset.empty_inter _
  | resetA => exact hs

theorem inter_empty_runOps (ops : List Op) (h : ∀ op ∈ ops, benignOp op = true)
    (s : GameState) (hs : s.unavailableCards ∩ s.discardedCards = ∅) :
    (runOps ops s).unavailableCards ∩ (runOps ops s).discardedCards = ∅ := by
  induction ops generalizing s with
  | nil => exact hs
  | cons op ops ih =>
      exact ih (fun o ho => h o (List.mem_cons_of_mem op ho)) (applyOp op s)
        (inter_empty_applyOp op (h op (List.mem_cons_self op ops)) s hs)

theorem compacted_applyOp (op : Op) (hop : nonStagingDrop op = true) (s : GameState)
    (hs : slotsCompacted s.combinationSlots = true) :
    slotsCompacted (applyOp op s).combinationSlots = true := by
  cases op with
  | select item =>
      show slotsCompacted (handleCardSelection item s).combinationSlots = true
      rcases handleCardSelection_eq item s with ⟨hc, _, _⟩ |
        ⟨r, su, i, _, _, hfi, hc, _, _⟩
      · rw [hc]; exact hs
      · rw [hc]; exact slotsCompacted_set_firstNone _ _ _ hs hfi
  | dropStaging rank suit i => exact absurd hop (by simp [nonStagingDrop])
  | dropBoard rank suit r i =>
      show slotsCompacted (handleDrop rank suit r i s).combinationSlots = true
      rcases handleDrop_eq rank suit r i s with h | ⟨_, _, _, hc, _, _⟩
      · rw [h]; exact hs
      · rw [hc]; exact hs
  | dblClick rank suit =>
      show slotsCompacted (handleDoubleClick rank suit s).combinationSlots = true
      rcases handleDoubleClick_eq rank suit s with h | ⟨hc | hc, _, _⟩
      · rw [h]; exact hs
      · rw [hc]; exact hs
      · rw [hc]; exact slotsCompacted_replicate _
  | removeAll =>
      show slotsCompacted (removeSelectedCards s).1.combinationSlots = true
      rcases removeSelectedCards_eq s with h | ⟨hc, _, _⟩
      · rw [h]; exact hs
      · rw [hc]; exact slotsCompacted_replicate _
  | aiResp resp =>
      show slotsCompacted (handleAiMoveResponse resp s).1.combinationSlots = true
      unfold handleAiMoveResponse
      cases herr : resp.error with
      | some e => exact hs
      | none =>
          dsimp only
          cases hg : resp.gameOver with
          | true =>
              show slotsCompacted (placeCards resp.move _).combinationSlots = true
              rw [placeCards_combinationSlots]
              exact hs
          | false =>
              show slotsCompacted
                ((placeCards resp.move _).combinationSlots.map fun _ => none) = true
              exact slotsCompacted_of_all_isNone _ (all_isNone_map_none _)
  | resetT =>
      show slotsCompacted (s.combinationSlots.map fun _ => none) = true
      exact slotsCompacted_of_all_isNone _ (all_isNone_map_none _)
  | resetA => exact hs

theorem compacted_runOps (ops : List Op) (h : ∀ op ∈ ops, nonStagingDrop op = true)
    (s : GameState) (hs : slotsCompacted s.combinationSlots = true) :
    slotsCompacted (runOps ops s).combinationSlots = true := by
  induction ops generalizing s with
  | nil => exact hs
  | cons op ops ih =>
      exact ih (fun o ho => h o (List.mem_cons_of_mem op ho)) (applyOp op s)
        (compacted_applyOp op (h op (List.mem_cons_self op ops)) s hs)

theorem cardAvailability_all_true_of_empty (s : GameState)
    (hu : s.unavailableCards = ∅) (hd : s.discardedCards = ∅) :
    (cardAvailability s).all (fun kv => kv.2) = true := by
  simp [cardAvailability, hu, hd]

/-! ### Example states and inputs (used by the claim theorems below) -/

/-- Staging holds A♥ at index 0 and K♦ at index 1, both marked unavailable. -/
def twoStaged : GameState :=
  { initState with
    combinationSlots := some ⟨"A", "♥"⟩ :: some ⟨"K", "♦"⟩ :: List.replicate 15 none
    unavailableCards := {"A♥", "K♦"} }

/-- Staging holds only A♥ at index 0, marked unavailable. -/
def stagedAH : GameState :=
  { initState with
    combinationSlots := some ⟨"A", "♥"⟩ :: List.replicate 16 none
    unavailableCards := {"A♥"} }

/-- An AI response placing A♥ on top with the game not over. -/
def respAH : AiResponse :=
  { move := { top := [some ⟨"A", "♥"⟩, none, none], middle := [], bottom := [] }
    gameOver := false
    error := none }

/-- State in which A♥ sits on the board's top row and is discarded. -/
def exC7 : GameState :=
  { initState with
    top := [some ⟨"A", "♥"⟩, none, none]
    discardedCards := {"A♥"} }

/-- Staging slot 0 is occupied by K♦. -/
def occupiedKD : GameState :=
  { initState with
    combinationSlots := some ⟨"K", "♦"⟩ :: List.replicate 16 none
    unavailableCards := {"K♦"} }

/-- State in which A♥ is discarded (as after a remove action). -/
def discAH : GameState := { initState with discardedCards := {"A♥"} }

/-- Board top row already holds K♦ at position 0. -/
def boardC6 : GameState := { initState with top := [some ⟨"K", "♦"⟩, none, none] }

/-- Move assignment trying to overwrite position 0, placing Q♣ at position 1
and leaving position 2 empty. -/
def moveC6 : MoveData :=
  { top := [some ⟨"A", "♥"⟩, some ⟨"Q", "♣"⟩, none], middle := [], bottom := [] }

/-- Stage A♥ by drag-drop, then apply an AI move that places it with
game_over = true. -/
def overlapOps : List Op :=
  [Op.dropStaging "A" "♥" 0,
   Op.aiResp
     { move := { top := [some ⟨"A", "♥"⟩, none, none], middle := [], bottom := [] }
       gameOver := true
       error := none }]

/-! ### Claim theorems -/

/-- Claim C1 (code bug): with staging `[A♥, K♦]` at indices 0 and 1,
double-clicking A♥ does NOT leave K♦ at index 0 — the refill loop of the
compaction block reads from the slots it has just cleared, so every staging
slot ends up empty while K♦ stays marked unavailable. -/
theorem doubleClick_empties_all_staging :
    (handleDoubleClick "A" "♥" twoStaged).combinationSlots =
        List.replicate 17 none ∧
      (handleDoubleClick "A" "♥" twoStaged).combinationSlots.get? 0 ≠
        some (some ⟨"K", "♦"⟩) ∧
      "K♦" ∈ (handleDoubleClick "A" "♥" twoStaged).unavailableCards ∧
      "A♥" ∉ (handleDoubleClick "A" "♥" twoStaged).unavailableCards := by
  decide

/-- Claim C2 counterexample: staging A♥ and applying an AI move that places
it with game_over = true leaves A♥ in BOTH `unavailableCards` and
`discardedCards`, so the two sets are not disjoint in every reachable
state. -/
theorem unavailable_discarded_overlap :
    "A♥" ∈ (runOps overlapOps initState).unavailableCards ∧
      "A♥" ∈ (runOps overlapOps initState).discardedCards ∧
      (runOps overlapOps initState).unavailableCards ∩
        (runOps overlapOps initState).discardedCards ≠ ∅ := by
  decide

/-- Claim C2 (amended): in every state the derived availability view offers
a key exactly when it lies in the 52-key universe and is in neither set;
and `unavailableCards` and `discardedCards` are disjoint in every state
reachable from the initial state by operations whose AI-move applications
all carry an error or report game_over = false (an AI move applied with
game_over = true puts each placed key into both sets). -/
theorem availability_view_and_disjoint :
    (∀ (s : GameState) (key : String),
        isAvailable s key = true ↔
          key ∈ universeKeys ∧ key ∉ s.unavailableCards ∧
            key ∉ s.discardedCards) ∧
    ∀ ops : List Op, (∀ op ∈ ops, benignOp op = true) →
      (runOps ops initState).unavailableCards ∩
        (runOps ops initState).discardedCards = ∅ := by
  refine ⟨isAvailable_iff, fun ops h => inter_empty_runOps ops h initState ?_⟩
  exact Finset.empty_inter _

theorem availability_view_and_disjoint_witness :
    ((runOps [Op.dropStaging "A" "♥" 0] initState).unavailableCards ∩
        (runOps [Op.dropStaging "A" "♥" 0] initState).discardedCards = ∅) ∧
      (isAvailable initState "A♥" = true ↔
        "A♥" ∈ universeKeys ∧ "A♥" ∉ initState.unavailableCards ∧
          "A♥" ∉ initState.discardedCards) :=
  ⟨availability_view_and_disjoint.2 [Op.dropStaging "A" "♥" 0] (by decide),
    availability_view_and_disjoint.1 initState "A♥"⟩

/-- Claim C3 counterexample: dropping A♥ onto staging slot 1 while the
staging area is empty occupies index 1 and leaves index 0 empty — the
occupied indices are not a prefix. -/
theorem staging_slots_gap :
    slotsCompacted
        (runOps [Op.dropStaging "A" "♥" 1] initState).combinationSlots = false ∧
      (runOps [Op.dropStaging "A" "♥" 1] initState).combinationSlots.get? 0 =
        some none ∧
      (runOps [Op.dropStaging "A" "♥" 1] initState).combinationSlots.get? 1 =
        some (some ⟨"A", "♥"⟩) := by
  decide

/-- Claim C3 (amended): for every sequence of operations that contains no
drag-drop onto a chosen staging slot (selection auto-place, board drops,
double-click returns, remove-all, AI-move application, resets), the
occupied staging slots always form a prefix 0..k-1; a drop onto an
arbitrary empty staging slot can create a gap. -/
theorem staging_slots_always_compacted (ops : List Op)
    (h : ∀ op ∈ ops, nonStagingDrop op = true) :
    slotsCompacted (runOps ops initState).combinationSlots = true :=
  compacted_runOps ops h initState (by decide)

theorem staging_slots_always_compacted_witness :
    slotsCompacted
      (runOps
        [Op.select (SelectorItem.rankItem "A" false),
         Op.select (SelectorItem.suitItem "♥" false),
         Op.dblClick "A" "♥"] initState).combinationSlots = true :=
  staging_slots_always_compacted _ (by decide)

/-- Claim C4: an AI-move response without an error field places every
non-null move card into the corresponding empty board slot, marks every
move card discarded, and — when game_over is false — clears the staging
area and sends a follow-up /update_state request. -/
theorem aiMove_response_applied (s : GameState) (resp : AiResponse)
    (he : resp.error = none) :
    (∀ (r : RowName) (j : Nat) (c : Card),
        (rowOf s r).get? j = some none →
        (moveRow resp.move r).get? j = some (some c) →
        (rowOf (handleAiMoveResponse resp s).1 r).get? j = some (some c)) ∧
    (∀ c : Card,
        c ∈ (resp.move.top ++ resp.move.middle ++ resp.move.bottom).filterMap id →
        c.getCardKey ∈ (handleAiMoveResponse resp s).1.discardedCards) ∧
    (resp.gameOver = false →
        (handleAiMoveResponse resp s).1.combinationSlots.all Option.isNone = true) ∧
    Request.updateState ∈ (handleAiMoveResponse resp s).2 := by
  unfold handleAiMoveResponse
  rw [he]
  dsimp only
  refine ⟨?_, ?_, ?_, ?_⟩
  · intro r j c h1 h2
    have hrow : rowOf (applyAiMove resp.move resp.gameOver s) r =
        placeLine (rowOf s r) (moveRow resp.move r) := by
      unfold applyAiMove
      cases resp.gameOver <;> cases r <;> rfl
    rw [hrow]
    exact placeLine_get?_of_placed _ _ j c h1 h2
  · intro c hc
    have h1 : c.getCardKey ∈
        ((resp.move.top ++ resp.move.middle ++ resp.move.bottom).filterMap id).foldl
          (fun d c => insert c.getCardKey d) s.discardedCards :=
      mem_foldl_insert_of_mem _ _ hc
    show c.getCardKey ∈ (applyAiMove resp.move resp.gameOver s).discardedCards
    unfold applyAiMove
    cases resp.gameOver with
    | true => exact placeCards_discarded_superset _ _ h1
    | false => exact placeCards_discarded_superset _ _ h1
  · intro hg
    rw [hg]
    exact all_isNone_map_none _
  · exact List.mem_cons_self _ _

theorem aiMove_response_scenario :
    (rowOf (handleAiMoveResponse respAH stagedAH).1 RowName.top).get? 0 =
        some (some ⟨"A", "♥"⟩) ∧
      (Card.mk "A" "♥").getCardKey ∈
        (handleAiMoveResponse respAH stagedAH).1.discardedCards ∧
      (handleAiMoveResponse respAH stagedAH).1.combinationSlots.all
        Option.isNone = true ∧
      isAvailable (handleAiMoveResponse respAH stagedAH).1 "A♥" = false ∧
      Request.updateState ∈ (handleAiMoveResponse respAH stagedAH).2 := by
  have h := aiMove_response_applied stagedAH respAH rfl
  exact ⟨h.1 RowName.top 0 ⟨"A", "♥"⟩ (by decide) (by decide),
    h.2.1 ⟨"A", "♥"⟩ (by decide), h.2.2.1 rfl, by decide, h.2.2.2⟩

/-- Claim C5: a key in `discardedCards` stays there under every sequence of
operations that contains no full round reset, and the selection controls
never offer it again. -/
theorem discarded_never_reenters_available (ops : List Op) (h : Op.resetT ∉ ops)
    (s : GameState) (key : String) (hk : key ∈ s.discardedCards) :
    key ∈ (runOps ops s).discardedCards ∧
      isAvailable (runOps ops s) key = false := by
  have hmem := discarded_subset_runOps ops h s hk
  exact ⟨hmem, isAvailable_false_of_discarded _ _ hmem⟩

theorem discarded_never_reenters_available_witness :
    "A♥" ∈ (runOps [Op.removeAll, Op.dblClick "A" "♥"] discAH).discardedCards ∧
      isAvailable (runOps [Op.removeAll, Op.dblClick "A" "♥"] discAH) "A♥" =
        false :=
  discarded_never_reenters_available _ (by decide) discAH "A♥" (by decide)

/-- Claim C6: `Board.placeCards` never overwrites an occupied slot, places a
card exactly where the assignment has a card and the slot is empty (marking
that card discarded), and leaves an empty slot empty when the assignment
entry there is null or missing. -/
theorem placeCards_places_exactly (s : GameState) (move : MoveData)
    (r : RowName) (j : Nat) :
    (∀ c : Card, (rowOf s r).get? j = some (some c) →
        (rowOf (placeCards move s) r).get? j = some (some c)) ∧
    (∀ c : Card, (rowOf s r).get? j = some none →
        (moveRow move r).get? j = some (some c) →
        (rowOf (placeCards move s) r).get? j = some (some c) ∧
          c.getCardKey ∈ (placeCards move s).discardedCards) ∧
    ((rowOf s r).get? j = some none →
        ((moveRow move r).get? j = some none ∨ (moveRow move r).get? j = none) →
        (rowOf (placeCards move s) r).get? j = some none) := by
  refine ⟨?_, ?_, ?_⟩
  · intro c h
    rw [rowOf_placeCards]
    exact placeLine_get?_of_occupied _ _ j c h
  · intro c h1 h2
    refine ⟨?_, ?_⟩
    · rw [rowOf_placeCards]
      exact placeLine_get?_of_placed _ _ j c h1 h2
    · apply placeCards_discarded_of_placed
      cases r with
      | top =>
          exact List.mem_append_left _
            (List.mem_append_left _ (placedCards_mem _ _ j c h1 h2))
      | middle =>
          exact List.mem_append_left _
            (List.mem_append_right _ (placedCards_mem _ _ j c h1 h2))
      | bottom =>
          exact List.mem_append_right _ (placedCards_mem _ _ j c h1 h2)
  · intro h1 h2
    rw [rowOf_placeCards]
    exact placeLine_get?_of_skip _ _ j h1 h2

theorem placeCards_places_exactly_witness :
    (rowOf (placeCards moveC6 boardC6) RowName.top).get? 0 =
        some (some ⟨"K", "♦"⟩) ∧
      ((rowOf (placeCards moveC6 boardC6) RowName.top).get? 1 =
          some (some ⟨"Q", "♣"⟩) ∧
        (Card.mk "Q" "♣").getCardKey ∈ (placeCards moveC6 boardC6).discardedCards) ∧
      (rowOf (placeCards moveC6 boardC6) RowName.top).get? 2 = some none :=
  ⟨(placeCards_places_exactly boardC6 moveC6 RowName.top 0).1 _ (by decide),
    (placeCards_places_exactly boardC6 moveC6 RowName.top 1).2.1 _ (by decide)
      (by decide),
    (placeCards_places_exactly boardC6 moveC6 RowName.top 2).2.2 (by decide)
      (Or.inl (by decide))⟩

/-- Claim C7 counterexample: `resetAI` — the operation that POSTs the
/reset_training endpoint — leaves the local state exactly as it was: the
board still holds A♥, the discarded set still contains it, and A♥ is not
available, contradicting the claim that this round-trip clears everything
back to `available = universe`. -/
theorem resetAI_leaves_state_unchanged :
    (resetAI exC7).2 = [Request.resetTraining] ∧
      (resetAI exC7).1 = exC7 ∧
      (resetAI exC7).1.top.get? 0 = some (some ⟨"A", "♥"⟩) ∧
      "A♥" ∈ (resetAI exC7).1.discardedCards ∧
      isAvailable (resetAI exC7).1 "A♥" = false := by
  decide

/-- Claim C7 (amended): the local reset action `resetTraining` clears the
board, the staging area and both key sets — making every availability entry
true again — but it POSTs /update_state; the action that POSTs
/reset_training (`resetAI`) changes no local game state. -/
theorem resetTraining_clears_resetAI_keeps (s : GameState) :
    (resetTrainingOp s).1.combinationSlots.all Option.isNone = true ∧
      (resetTrainingOp s).1.top.all Option.isNone = true ∧
      (resetTrainingOp s).1.middle.all Option.isNone = true ∧
      (resetTrainingOp s).1.bottom.all Option.isNone = true ∧
      (resetTrainingOp s).1.unavailableCards = ∅ ∧
      (resetTrainingOp s).1.discardedCards = ∅ ∧
      (cardAvailability (resetTrainingOp s).1).all (fun kv => kv.2) = true ∧
      (resetTrainingOp s).2 = [Request.updateState] ∧
      (resetAI s).1 = s ∧ (resetAI s).2 = [Request.resetTraining] :=
  ⟨all_isNone_map_none _, all_isNone_map_none _, all_isNone_map_none _,
    all_isNone_map_none _, rfl, rfl,
    cardAvailability_all_true_of_empty _ rfl rfl, rfl, rfl, rfl⟩

/-- Claim C8: the distribute action with zero staged cards shows an error,
issues no request and leaves the state unchanged; with at least one staged
card it issues the /ai_move request (and still mutates nothing
synchronously). -/
theorem distributeCards_requires_staged (s : GameState) :
    (s.combinationSlots.filterMap id = [] →
        distributeCards s = (s, none, true)) ∧
    (s.combinationSlots.filterMap id ≠ [] →
        distributeCards s = (s, some Request.aiMove, false)) := by
  unfold distributeCards
  dsimp only
  constructor
  · intro h
    rw [h]
    simp
  · intro h
    rw [if_pos (List.length_pos.2 h)]

theorem distributeCards_requires_staged_witness :
    distributeCards initState = (initState, none, true) ∧
      distributeCards stagedAH = (stagedAH, some Request.aiMove, false) :=
  ⟨(distributeCards_requires_staged initState).1 (by decide),
    (distributeCards_requires_staged stagedAH).2 (by decide)⟩

/-- Claim C9: a drop onto a staging or board slot is a complete no-op
unless the target slot is empty and the key is neither unavailable nor
discarded; in particular a drop never replaces the card occupying a slot. -/
theorem drop_requires_empty_and_available (s : GameState) (rank suit : String)
    (r : RowName) (i j : Nat) :
    (¬ ((rank ++ suit) ∉ s.unavailableCards ∧ (rank ++ suit) ∉ s.discardedCards ∧
          s.combinationSlots.get? i = some none) →
        handleCombinationSlotDrop rank suit i s = s) ∧
    (¬ ((rank ++ suit) ∉ s.unavailableCards ∧ (rank ++ suit) ∉ s.discardedCards ∧
          (rowOf s r).get? j = some none) →
        handleDrop rank suit r j s = s) ∧
    (∀ c : Card, s.combinationSlots.get? i = some (some c) →
        (handleCombinationSlotDrop rank suit i s).combinationSlots.get? i =
          some (some c)) ∧
    (∀ c : Card, (rowOf s r).get? j = some (some c) →
        (rowOf (handleDrop rank suit r j s) r).get? j = some (some c)) := by
  refine ⟨?_, ?_, ?_, ?_⟩
  · intro h
    unfold handleCombinationSlotDrop
    dsimp only
    rw [if_neg h]
  · intro h
    unfold handleDrop
    dsimp only
    rw [if_neg h]
  · intro c hc
    have h : ¬ ((rank ++ suit) ∉ s.unavailableCards ∧
        (rank ++ suit) ∉ s.discardedCards ∧
        s.combinationSlots.get? i = some none) := by
      intro hcon
      have h3 := hcon.2.2
      rw [hc] at h3
      simp at h3
    have heq : handleCombinationSlotDrop rank suit i s = s := by
      unfold handleCombinationSlotDrop
      dsimp only
      rw [if_neg h]
    rw [heq]
    exact hc
  · intro c hc
    have h : ¬ ((rank ++ suit) ∉ s.unavailableCards ∧
        (rank ++ suit) ∉ s.discardedCards ∧
        (rowOf s r).get? j = some none) := by
      intro hcon
      have h3 := hcon.2.2
      rw [hc] at h3
      simp at h3
    have heq : handleDrop rank suit r j s = s := by
      unfold handleDrop
      dsimp only
      rw [if_neg h]
    rw [heq]
    exact hc

theorem drop_requires_empty_and_available_witness :
    handleCombinationSlotDrop "A" "♥" 0 occupiedKD = occupiedKD ∧
      (handleCombinationSlotDrop "A" "♥" 0 occupiedKD).combinationSlots.get? 0 =
        some (some ⟨"K", "♦"⟩) :=
  ⟨(drop_requires_empty_and_available occupiedKD "A" "♥" RowName.top 0 0).1
      (by decide),
    (drop_requires_empty_and_available occupiedKD "A" "♥" RowName.top 0 0).2.2.1 _
      (by decide)⟩

/-- Claim C10: for every card of the 52-card universe, concatenating rank
and suit into the key and then splitting the key with the
`([0-9JQKA]+)([♥♦♣♠])` pattern of `getGameStateFromDOM` returns exactly the
original rank and suit — including the two-character rank 10. -/
theorem cardKey_roundtrip (rank suit : String) (hr : rank ∈ ranks)
    (hs : suit ∈ suits) :
    parseCardKey (Card.mk rank suit).getCardKey = some (rank, suit) := by
  fin_cases hr <;> fin_cases hs <;> decide

theorem cardKey_roundtrip_witness :
    parseCardKey (Card.mk "10" "♥").getCardKey = some ("10", "♥") :=
  cardKey_roundtrip "10" "♥" (by decide) (by decide)

end Gem2Ofc
